import Mathlib

/-!
Shallow embedding of the spoke-side reconciler of
kluster-manager/cluster-auth-manager
(src/pkg/agent/controller/managedclusterrolebinding_controller.go).

The hub store is read-only here except for the grant object returned by the
initial get; every store mutation performed by the controller is modelled as a
pure state transformation on the spoke state together with an explicit trace of
write events, each tagged with the store it was issued to.  Fallible store
operations are driven by an explicit fault-injection record, so that the
error-propagation structure of the source is preserved.
-/

namespace ClusterAuth

/-- A Kubernetes label set, modelled as a list of key-value pairs. -/
abbrev Labels := List (String × String)

/-- rbac.Subject: APIGroup, Kind, Name, Namespace. -/
structure RbacSubject where
  apiGroup : String
  kind : String
  name : String
  ns : String
deriving DecidableEq

/-- rbac.RoleRef: APIGroup, Kind, Name. -/
structure RoleRef where
  apiGroup : String
  kind : String
  name : String
deriving DecidableEq

/-- rbac.PolicyRule, restricted to the fields the controller populates. -/
structure PolicyRule where
  apiGroups : List String
  resources : List String
  verbs : List String
  resourceNames : List String
deriving DecidableEq

/-- The hub-resident ManagedClusterRoleBinding ("Grant").  The fields mirror
the uses in the controller: metadata name, labels, the subject list
(Subjects[0].Name is read), the repo's RoleRef with a Name and an optional
Namespaces list (nil = cluster-wide), the deletion timestamp (modelled as a
marker bit) and the finalizer list.  The fields userID and hubOwnerID are
modelled from the spec (see getUserIDAndHubOwnerIDFromLabelValues). -/
structure Grant where
  name : String
  labels : Labels
  userID : String
  hubOwnerID : String
  subjects : List RbacSubject
  roleRefName : String
  roleRefNamespaces : Option (List String)
  deletionMarked : Bool
  finalizers : List String
deriving DecidableEq

/-- core.ServiceAccount, restricted to identity and labels. -/
structure ServiceAccount where
  name : String
  ns : String
  labels : Labels
deriving DecidableEq

/-- rbac.ClusterRole, restricted to the fields the controller touches. -/
structure ClusterRole where
  name : String
  labels : Labels
  rules : List PolicyRule
deriving DecidableEq

/-- rbac.ClusterRoleBinding. -/
structure ClusterRoleBinding where
  name : String
  labels : Labels
  subjects : List RbacSubject
  roleRef : RoleRef
deriving DecidableEq

/-- rbac.RoleBinding (namespace-scoped). -/
structure RoleBinding where
  name : String
  ns : String
  labels : Labels
  subjects : List RbacSubject
  roleRef : RoleRef
deriving DecidableEq

/-- The spoke store: the four object kinds the controller reads or writes. -/
structure SpokeState where
  serviceAccounts : List ServiceAccount
  clusterRoles : List ClusterRole
  clusterRoleBindings : List ClusterRoleBinding
  roleBindings : List RoleBinding
deriving DecidableEq

/-- Modelled from the spec: the finalizer marker name
(common.SpokeAuthorizationFinalizer); the constant's definition is not among
the provided sources and only its identity matters. -/
def SpokeAuthorizationFinalizer : String := "authorization.k8s.appscode.com/finalizer"

/-- rbac.GroupName. -/
def rbacGroupName : String := "rbac.authorization.k8s.io"

/-- Modelled from the spec: utils.GetUserIDAndHubOwnerIDFromLabelValues is not
among the provided sources; per the spec the hub-owner identifier is an
attribute of the Grant derived deterministically from its label values, used
only in derived-object naming.  We carry the pair as Grant attributes. -/
def getUserIDAndHubOwnerIDFromLabelValues (g : Grant) : String × String :=
  (g.userID, g.hubOwnerID)

/-- labels.SelectorFromSet + client.MatchingLabelsSelector: an object matches
when its label set contains every pair of the selector set. -/
def selMatches (sel : Labels) (obj : Labels) : Bool :=
  sel.all (fun kv => decide (kv ∈ obj))

/-! ### The Resource Synchronizer (cu.CreateOrPatch)

CreateOrPatch fetches by identity; if absent it creates the desired object
(the mutator is the identity on the desired object at every call site); if
present it applies the mutator to the existing object, overwriting only the
mutable fields the call site copies, and patches it back. -/

section Sync

variable {α : Type} {κ : Type} [DecidableEq κ]

/-- Whether the store list holds an object with the given identity key. -/
def hasKey (key : α → κ) (k : κ) (l : List α) : Bool :=
  l.any (fun x => decide (key x = k))

/-- The patch applied by CreateOrPatch to an existing object: the mutator
overwrites the mutable fields from the desired object d on the object whose
identity matches d, leaving every other object alone. -/
def ow (key : α → κ) (upd : α → α → α) (d x : α) : α :=
  if key x = key d then upd x d else x

/-- CreateOrPatch: if an object with the desired identity exists, patch it
with the mutator; otherwise append the desired object. -/
def upsert (key : α → κ) (upd : α → α → α) (d : α) (l : List α) : List α :=
  if hasKey key (key d) l then l.map (ow key upd d) else l ++ [d]

/-- A sequence of CreateOrPatch calls, applied left to right. -/
def upsertAll (key : α → κ) (upd : α → α → α) (ds : List α) (l : List α) : List α :=
  ds.foldl (fun acc d => upsert key upd d acc) l

/-- The last element of the call sequence carrying a given identity key. -/
def lastFor (key : α → κ) (k : κ) : List α → Option α
  | [] => none
  | d :: ds =>
    match lastFor key k ds with
    | some e => some e
    | none => if key d = k then some d else none

/-- The overwrite chain of a call sequence applied to a single object. -/
def owAll (key : α → κ) (upd : α → α → α) (ds : List α) (x : α) : α :=
  ds.foldl (fun y d => ow key upd d y) x

end Sync

/-- Identity key of a ClusterRole: its name. -/
def crKey (c : ClusterRole) : String := c.name

/-- Mutator of the impersonation-ClusterRole CreateOrPatch call: in.Rules = cr.Rules. -/
def crMut (x d : ClusterRole) : ClusterRole := { x with rules := d.rules }

/-- Identity key of a ClusterRoleBinding: its name. -/
def crbKey (b : ClusterRoleBinding) : String := b.name

/-- Mutator of the ClusterRoleBinding CreateOrPatch calls:
in.Subjects = crb.Subjects; in.RoleRef = crb.RoleRef. -/
def crbMut (x d : ClusterRoleBinding) : ClusterRoleBinding :=
  { x with subjects := d.subjects, roleRef := d.roleRef }

/-- Identity key of a RoleBinding: name and namespace. -/
def rbKey (b : RoleBinding) : String × String := (b.name, b.ns)

/-- Mutator of the RoleBinding CreateOrPatch calls:
in.Subjects = rb.Subjects; in.RoleRef = rb.RoleRef. -/
def rbMut (x d : RoleBinding) : RoleBinding :=
  { x with subjects := d.subjects, roleRef := d.roleRef }

/-! ### Fault injection and the write trace -/

/-- Which store operations fail in a given invocation.  List faults are per
kind; delete faults are per object; grant updates and each CreateOrPatch call
site have their own flag. -/
structure Faults where
  listSAErr : Bool
  listCRErr : Bool
  listCRBErr : Bool
  deleteSAErr : ServiceAccount → Bool
  deleteCRErr : ClusterRole → Bool
  deleteCRBErr : ClusterRoleBinding → Bool
  updateGrantErr : Bool
  patchCRErr : Bool
  patchICRBErr : Bool
  patchGCRBErr : Bool
  patchRBErr : String → Bool

/-- The fault-free invocation. -/
def noFaults : Faults :=
  ⟨false, false, false, fun _ => false, fun _ => false, fun _ => false,
   false, false, false, false, fun _ => false⟩

/-- The store a write was issued to. -/
inductive Store where
  | hub
  | spoke
deriving DecidableEq

/-- One successful store write, tagged with its target store. -/
inductive WriteEvent where
  | updateGrant (store : Store) (g : Grant)
  | upsertClusterRole (store : Store) (name : String)
  | upsertClusterRoleBinding (store : Store) (name : String)
  | upsertRoleBinding (store : Store) (name ns : String)
  | deleteServiceAccount (store : Store) (name ns : String)
  | deleteClusterRole (store : Store) (name : String)
  | deleteClusterRoleBinding (store : Store) (name : String)
deriving DecidableEq

/-- The store a write event targeted. -/
def WriteEvent.storeOf : WriteEvent → Store
  | .updateGrant s _ => s
  | .upsertClusterRole s _ => s
  | .upsertClusterRoleBinding s _ => s
  | .upsertRoleBinding s _ _ => s
  | .deleteServiceAccount s _ _ => s
  | .deleteClusterRole s _ => s
  | .deleteClusterRoleBinding s _ => s

/-- Whether a write event is an update of the grant object. -/
def WriteEvent.isGrantUpdate : WriteEvent → Bool
  | .updateGrant _ _ => true
  | _ => false

/-- The errors an invocation can surface.  subjectIndex models the Go runtime
index-out-of-range panic on Subjects[0]. -/
inductive RErr where
  | getFailed (notFound : Bool)
  | subjectIndex
  | deleteFailed
  | updateFailed
  | patchFailed
deriving DecidableEq

/-- Result of one reconciler invocation: outcome, final spoke state, and the
trace of successful store writes. -/
structure RStep where
  result : Except RErr Unit
  spoke : SpokeState
  writes : List WriteEvent

/-- Whether an invocation succeeded. -/
def RStep.isOk (r : RStep) : Bool :=
  match r.result with
  | .ok _ => true
  | .error _ => false

/-- The error of a failed invocation, if any. -/
def RStep.errOf (r : RStep) : Option RErr :=
  match r.result with
  | .ok _ => none
  | .error e => some e

/-- Outcome of the initial HubClient.Get. -/
inductive GetOutcome where
  | found (g : Grant)
  | notFound
  | failed

/-! ### The Cleanup Sweeper (deleteAssociatedResources) -/

/-- The delete loop over a listed snapshot of ServiceAccounts: each delete
either fails (aborting with the current store contents) or removes the object
by identity and records the write. -/
def sweepSAItems (f : Faults) :
    List ServiceAccount → List ServiceAccount →
    List ServiceAccount × Except RErr Unit × List WriteEvent
  | [], cur => (cur, .ok (), [])
  | x :: xs, cur =>
    if f.deleteSAErr x then (cur, .error .deleteFailed, [])
    else
      let rest := sweepSAItems f xs (cur.filter fun y => !(y.name == x.name && y.ns == x.ns))
      (rest.1, rest.2.1, WriteEvent.deleteServiceAccount .spoke x.name x.ns :: rest.2.2)

/-- The delete loop over a listed snapshot of ClusterRoles. -/
def sweepCRItems (f : Faults) :
    List ClusterRole → List ClusterRole →
    List ClusterRole × Except RErr Unit × List WriteEvent
  | [], cur => (cur, .ok (), [])
  | x :: xs, cur =>
    if f.deleteCRErr x then (cur, .error .deleteFailed, [])
    else
      let rest := sweepCRItems f xs (cur.filter fun y => !(y.name == x.name))
      (rest.1, rest.2.1, WriteEvent.deleteClusterRole .spoke x.name :: rest.2.2)

/-- The delete loop over a listed snapshot of ClusterRoleBindings. -/
def sweepCRBItems (f : Faults) :
    List ClusterRoleBinding → List ClusterRoleBinding →
    List ClusterRoleBinding × Except RErr Unit × List WriteEvent
  | [], cur => (cur, .ok (), [])
  | x :: xs, cur =>
    if f.deleteCRBErr x then (cur, .error .deleteFailed, [])
    else
      let rest := sweepCRBItems f xs (cur.filter fun y => !(y.name == x.name))
      (rest.1, rest.2.1, WriteEvent.deleteClusterRoleBinding .spoke x.name :: rest.2.2)

/-- The ServiceAccount pass of the sweeper: list by label selector; a listing
error is swallowed (err == nil guard) and the pass does nothing; otherwise
every listed object is deleted, a delete error aborting immediately. -/
def phaseSA (f : Faults) (sel : Labels) (s : SpokeState) :
    SpokeState × Except RErr Unit × List WriteEvent :=
  if f.listSAErr then (s, .ok (), [])
  else
    let snap := s.serviceAccounts.filter fun a => selMatches sel a.labels
    let out := sweepSAItems f snap s.serviceAccounts
    ({ s with serviceAccounts := out.1 }, out.2.1, out.2.2)

/-- The ClusterRole pass of the sweeper. -/
def phaseCR (f : Faults) (sel : Labels) (s : SpokeState) :
    SpokeState × Except RErr Unit × List WriteEvent :=
  if f.listCRErr then (s, .ok (), [])
  else
    let snap := s.clusterRoles.filter fun a => selMatches sel a.labels
    let out := sweepCRItems f snap s.clusterRoles
    ({ s with clusterRoles := out.1 }, out.2.1, out.2.2)

/-- The ClusterRoleBinding pass of the sweeper. -/
def phaseCRB (f : Faults) (sel : Labels) (s : SpokeState) :
    SpokeState × Except RErr Unit × List WriteEvent :=
  if f.listCRBErr then (s, .ok (), [])
  else
    let snap := s.clusterRoleBindings.filter fun a => selMatches sel a.labels
    let out := sweepCRBItems f snap s.clusterRoleBindings
    ({ s with clusterRoleBindings := out.1 }, out.2.1, out.2.2)

/-- deleteAssociatedResources: sweep ServiceAccounts, then ClusterRoles, then
ClusterRoleBindings, all selected by the grant's label set; a delete error
propagates immediately and aborts the remaining passes.  Namespace-scoped
RoleBindings are not swept. -/
def deleteAssociatedResources (f : Faults) (sel : Labels) (s : SpokeState) :
    SpokeState × Except RErr Unit × List WriteEvent :=
  let o1 := phaseSA f sel s
  match o1.2.1 with
  | .error e => (o1.1, .error e, o1.2.2)
  | .ok _ =>
    let o2 := phaseCR f sel o1.1
    match o2.2.1 with
    | .error e => (o2.1, .error e, o1.2.2 ++ o2.2.2)
    | .ok _ =>
      let o3 := phaseCRB f sel o2.1
      (o3.1, o3.2.1, o1.2.2 ++ o2.2.2 ++ o3.2.2)

/-! ### The Grant Lifecycle Manager and the Permission Materializer -/

/-- addFinalizerIfNeeded: when the finalizer is absent, append it and update
the grant object through the spoke client. -/
def addFinalizerIfNeeded (f : Faults) (g : Grant) :
    Except RErr (Grant × List WriteEvent) :=
  if SpokeAuthorizationFinalizer ∈ g.finalizers then .ok (g, [])
  else
    let g' := { g with finalizers := g.finalizers ++ [SpokeAuthorizationFinalizer] }
    if f.updateGrantErr then .error .updateFailed
    else .ok (g', [WriteEvent.updateGrant .spoke g'])

/-- The deterministic impersonation name: impersonate-(subject)-(owner). -/
def impName (userName hubOwnerID : String) : String :=
  "impersonate-" ++ userName ++ "-" ++ hubOwnerID

/-- The impersonation ClusterRole: one rule letting the synthetic name be
impersonated (verb impersonate, empty API group, resource users, resource
name = subject), labelled with the grant's labels. -/
def impersonationRole (g : Grant) (userName hubOwnerID : String) : ClusterRole :=
  { name := impName userName hubOwnerID
    labels := g.labels
    rules := [{ apiGroups := [""], resources := ["users"], verbs := ["impersonate"],
                resourceNames := [userName] }] }

/-- The impersonation ClusterRoleBinding: binds the fixed service account
cluster-gateway in namespace open-cluster-management-managed-serviceaccount
to the impersonation ClusterRole. -/
def impersonationBinding (g : Grant) (userName hubOwnerID : String) : ClusterRoleBinding :=
  { name := impName userName hubOwnerID ++ "-rolebinding"
    labels := g.labels
    subjects := [{ apiGroup := "", kind := "ServiceAccount", name := "cluster-gateway",
                   ns := "open-cluster-management-managed-serviceaccount" }]
    roleRef := { apiGroup := rbacGroupName, kind := "ClusterRole",
                 name := impName userName hubOwnerID } }

/-- The subject list of the grant bindings: the grant's first subject as a
User principal. -/
def userSubjects (userName : String) : List RbacSubject :=
  [{ apiGroup := "", kind := "User", name := userName, ns := "" }]

/-- The cluster-wide grant binding: named after the grant, binding the user to
the grant's role as a ClusterRole reference. -/
def givenClusterRoleBinding (g : Grant) (userName : String) : ClusterRoleBinding :=
  { name := g.name
    labels := g.labels
    subjects := userSubjects userName
    roleRef := { apiGroup := rbacGroupName, kind := "ClusterRole", name := g.roleRefName } }

/-- The namespace-scoped grant binding for one target namespace: named after
the grant, in that namespace, binding the user to the grant's role as a
namespace-scoped Role reference. -/
def givenRoleBinding (g : Grant) (userName ns : String) : RoleBinding :=
  { name := g.name
    ns := ns
    labels := g.labels
    subjects := userSubjects userName
    roleRef := { apiGroup := rbacGroupName, kind := "Role", name := g.roleRefName } }

/-- The per-namespace loop of the materializer: one CreateOrPatch per listed
namespace, in order, aborting on the first failure. -/
def materializeRBs (f : Faults) (g : Grant) (userName : String) :
    List String → SpokeState → SpokeState × Except RErr Unit × List WriteEvent
  | [], s => (s, .ok (), [])
  | n :: ns, s =>
    if f.patchRBErr n then (s, .error .patchFailed, [])
    else
      let rb := givenRoleBinding g userName n
      let s' := { s with roleBindings := upsert rbKey rbMut rb s.roleBindings }
      let rest := materializeRBs f g userName ns s'
      (rest.1, rest.2.1, WriteEvent.upsertRoleBinding .spoke rb.name rb.ns :: rest.2.2)

/-- The Permission Materializer: impersonation ClusterRole, then impersonation
ClusterRoleBinding, then the grant binding(s) according to the role scope,
each step aborting the rest on failure. -/
def materialize (f : Faults) (g : Grant) (userName hubOwnerID : String) (s : SpokeState) :
    SpokeState × Except RErr Unit × List WriteEvent :=
  let cr := impersonationRole g userName hubOwnerID
  if f.patchCRErr then (s, .error .patchFailed, [])
  else
    let s1 := { s with clusterRoles := upsert crKey crMut cr s.clusterRoles }
    let w1 := [WriteEvent.upsertClusterRole .spoke cr.name]
    let crb := impersonationBinding g userName hubOwnerID
    if f.patchICRBErr then (s1, .error .patchFailed, w1)
    else
      let s2 := { s1 with clusterRoleBindings := upsert crbKey crbMut crb s1.clusterRoleBindings }
      let w2 := w1 ++ [WriteEvent.upsertClusterRoleBinding .spoke crb.name]
      match g.roleRefNamespaces with
      | none =>
        let gcrb := givenClusterRoleBinding g userName
        if f.patchGCRBErr then (s2, .error .patchFailed, w2)
        else
          ({ s2 with clusterRoleBindings := upsert crbKey crbMut gcrb s2.clusterRoleBindings },
           .ok (), w2 ++ [WriteEvent.upsertClusterRoleBinding .spoke gcrb.name])
      | some nss =>
        let out := materializeRBs f g userName nss s2
        (out.1, out.2.1, w2 ++ out.2.2)

/-! ### Characterizations used by the proofs

These definitions are proof infrastructure: closed forms for the call
sequences the materializer issues, proved below to coincide with the
step-by-step definitions above. -/

/-- The ClusterRole CreateOrPatch sequence of one materializer run. -/
def crDesireds (g : Grant) (u o : String) : List ClusterRole :=
  [impersonationRole g u o]

/-- The ClusterRoleBinding CreateOrPatch sequence of one materializer run. -/
def crbDesireds (g : Grant) (u o : String) : List ClusterRoleBinding :=
  match g.roleRefNamespaces with
  | none => [impersonationBinding g u o, givenClusterRoleBinding g u]
  | some _ => [impersonationBinding g u o]

/-- The RoleBinding CreateOrPatch sequence of one materializer run. -/
def rbDesireds (g : Grant) (u : String) : List RoleBinding :=
  match g.roleRefNamespaces with
  | none => []
  | some nss => nss.map (fun n => givenRoleBinding g u n)

/-- Closed form of the spoke state a fault-free materializer run produces. -/
def matSpoke (g : Grant) (u o : String) (s : SpokeState) : SpokeState :=
  { s with
    clusterRoles := upsertAll crKey crMut (crDesireds g u o) s.clusterRoles
    clusterRoleBindings := upsertAll crbKey crbMut (crbDesireds g u o) s.clusterRoleBindings
    roleBindings := upsertAll rbKey rbMut (rbDesireds g u) s.roleBindings }

/-- Closed form of the write trace a fault-free materializer run produces. -/
def matWrites (g : Grant) (u o : String) : List WriteEvent :=
  [WriteEvent.upsertClusterRole .spoke (impName u o),
   WriteEvent.upsertClusterRoleBinding .spoke (impName u o ++ "-rolebinding")] ++
  match g.roleRefNamespaces with
  | none => [WriteEvent.upsertClusterRoleBinding .spoke g.name]
  | some nss => nss.map (fun n => WriteEvent.upsertRoleBinding .spoke g.name n)

/-! ### The Reconciliation Engine -/

/-- Reconcile: hub get (any error, not-found included, is returned as the
invocation's error); read Subjects[0].Name (panics when the subject list is
empty, before the deletion branch); on a deletion-marked grant carrying the
finalizer, run the sweeper and then remove the finalizer with a spoke-client
update; otherwise add the finalizer if needed and run the materializer. -/
def Reconcile (f : Faults) (get : GetOutcome) (s : SpokeState) : RStep :=
  match get with
  | .notFound => ⟨.error (.getFailed true), s, []⟩
  | .failed => ⟨.error (.getFailed false), s, []⟩
  | .found g =>
    let hubOwnerID := (getUserIDAndHubOwnerIDFromLabelValues g).2
    match g.subjects with
    | [] => ⟨.error .subjectIndex, s, []⟩
    | subj :: _ =>
      let userName := subj.name
      if g.deletionMarked then
        if SpokeAuthorizationFinalizer ∈ g.finalizers then
          let out := deleteAssociatedResources f g.labels s
          match out.2.1 with
          | .error e => ⟨.error e, out.1, out.2.2⟩
          | .ok _ =>
            let g' := { g with
              finalizers := g.finalizers.filter fun x => !(x == SpokeAuthorizationFinalizer) }
            if f.updateGrantErr then ⟨.error .updateFailed, out.1, out.2.2⟩
            else ⟨.ok (), out.1, out.2.2 ++ [WriteEvent.updateGrant .spoke g']⟩
        else ⟨.ok (), s, []⟩
      else
        match addFinalizerIfNeeded f g with
        | .error e => ⟨.error e, s, []⟩
        | .ok (g2, w0) =>
          let out := materialize f g2 userName hubOwnerID s
          ⟨out.2.1, out.1, w0 ++ out.2.2⟩

/-! ## Lemmas about the Resource Synchronizer -/

section SyncLemmas

variable {α : Type} {κ : Type} [DecidableEq κ]

theorem ow_key (key : α → κ) (upd : α → α → α)
    (hk : ∀ x d, key (upd x d) = key x) (d x : α) :
    key (ow key upd d x) = key x := by
  unfold ow
  split
  · exact hk x d
  · rfl

theorem hasKey_map_ow (key : α → κ) (upd : α → α → α)
    (hk : ∀ x d, key (upd x d) = key x) (d : α) (k : κ) (l : List α) :
    hasKey key k (l.map (ow key upd d)) = hasKey key k l := by
  unfold hasKey
  rw [List.any_map]
  congr 1
  funext x
  simp [Function.comp, ow_key key upd hk d x]

theorem hasKey_upsert_self (key : α → κ) (upd : α → α → α)
    (hk : ∀ x d, key (upd x d) = key x) (d : α) (l : List α) :
    hasKey key (key d) (upsert key upd d l) = true := by
  unfold upsert
  split
  · rwa [hasKey_map_ow key upd hk]
  · unfold hasKey
    simp

theorem hasKey_upsert_mono (key : α → κ) (upd : α → α → α)
    (hk : ∀ x d, key (upd x d) = key x) (d : α) (k : κ) (l : List α)
    (h : hasKey key k l = true) :
    hasKey key k (upsert key upd d l) = true := by
  unfold upsert
  split
  · rwa [hasKey_map_ow key upd hk]
  · unfold hasKey at h ⊢
    simp [List.any_append, h]

theorem hasKey_upsertAll_mono (key : α → κ) (upd : α → α → α)
    (hk : ∀ x d, key (upd x d) = key x) (ds : List α) (k : κ) (l : List α)
    (h : hasKey key k l = true) :
    hasKey key k (upsertAll key upd ds l) = true := by
  induction ds generalizing l with
  | nil => exact h
  | cons d ds ih =>
    exact ih (upsert key upd d l) (hasKey_upsert_mono key upd hk d k l h)

theorem hasKey_upsertAll_of_mem (key : α → κ) (upd : α → α → α)
    (hk : ∀ x d, key (upd x d) = key x) (ds : List α) (d : α) (l : List α)
    (h : d ∈ ds) :
    hasKey key (key d) (upsertAll key upd ds l) = true := by
  induction ds generalizing l with
  | nil => cases h
  | cons e ds ih =>
    rcases List.mem_cons.1 h with rfl | hmem
    · exact hasKey_upsertAll_mono key upd hk ds (key d) _
        (hasKey_upsert_self key upd hk d l)
    · exact ih (upsert key upd e l) hmem

theorem upsert_of_hasKey (key : α → κ) (upd : α → α → α) (d : α) (l : List α)
    (h : hasKey key (key d) l = true) :
    upsert key upd d l = l.map (ow key upd d) := by
  unfold upsert
  rw [if_pos h]

theorem upsert_of_not_hasKey (key : α → κ) (upd : α → α → α) (d : α) (l : List α)
    (h : hasKey key (key d) l = false) :
    upsert key upd d l = l ++ [d] := by
  unfold upsert
  rw [h]
  simp

theorem lastFor_cons (key : α → κ) (k : κ) (d : α) (ds : List α) :
    lastFor key k (d :: ds) =
      match lastFor key k ds with
      | some e => some e
      | none => if key d = k then some d else none := rfl

theorem owAll_char (key : α → κ) (upd : α → α → α)
    (hk : ∀ x d, key (upd x d) = key x)
    (hover : ∀ x d e, upd (upd x d) e = upd x e)
    (ds : List α) (x : α) :
    owAll key upd ds x =
      match lastFor key (key x) ds with
      | some e => upd x e
      | none => x := by
  induction ds generalizing x with
  | nil => rfl
  | cons d ds ih =>
    show owAll key upd ds (ow key upd d x) = _
    rw [ih (ow key upd d x), lastFor_cons]
    unfold ow
    by_cases h : key x = key d
    · rw [if_pos h, hk x d]
      cases hl : lastFor key (key x) ds with
      | some e => simp [hl, hover]
      | none => simp [hl, h.symm]
    · rw [if_neg h]
      cases hl : lastFor key (key x) ds with
      | some e => simp [hl]
      | none =>
        simp only [hl]
        rw [if_neg (fun hc => h hc.symm)]

theorem mem_upsert (key : α → κ) (upd : α → α → α) (d x : α) (l : List α)
    (h : x ∈ upsert key upd d l) :
    (∃ y ∈ l, x = ow key upd d y) ∨ (x = d ∧ hasKey key (key d) l = false) := by
  unfold upsert at h
  by_cases hb : hasKey key (key d) l = true
  · rw [if_pos hb] at h
    rcases List.mem_map.1 h with ⟨y, hy, hxy⟩
    exact Or.inl ⟨y, hy, hxy.symm⟩
  · rw [if_neg hb] at h
    rcases List.mem_append.1 h with hy | hy
    · refine Or.inl ⟨x, hy, ?_⟩
      unfold ow
      by_cases hx : key x = key d
      · exfalso
        apply hb
        unfold hasKey
        rw [List.any_eq_true]
        exact ⟨x, hy, by simp [hx]⟩
      · rw [if_neg hx]
    · rcases List.mem_singleton.1 hy with rfl
      exact Or.inr ⟨rfl, Bool.eq_false_iff.2 hb⟩

theorem mem_upsertAll_origin (key : α → κ) (upd : α → α → α)
    (hk : ∀ x d, key (upd x d) = key x)
    (ds : List α) (x : α) (l : List α)
    (h : x ∈ upsertAll key upd ds l)
    (hnone : lastFor key (key x) ds = none) :
    x ∈ l := by
  induction ds generalizing l with
  | nil => exact h
  | cons d ds ih =>
    rw [lastFor_cons] at hnone
    cases hl : lastFor key (key x) ds with
    | some e => rw [hl] at hnone; cases hnone
    | none =>
      rw [hl] at hnone
      have hne : ¬ key d = key x := by
        intro hc
        rw [if_pos hc] at hnone
        cases hnone
      have hx : x ∈ upsert key upd d l := ih (upsert key upd d l) h hl
      rcases mem_upsert key upd d x l hx with ⟨y, hy, hxy⟩ | ⟨rfl, _⟩
      · subst hxy
        unfold ow
        by_cases hyk : key y = key d
        · exact absurd hyk.symm (by rwa [ow_key key upd hk d y] at hne)
        · rwa [if_neg hyk]
      · exact absurd rfl hne

theorem mem_upsertAll_stable (key : α → κ) (upd : α → α → α)
    (hk : ∀ x d, key (upd x d) = key x)
    (hover : ∀ x d e, upd (upd x d) e = upd x e)
    (hself : ∀ d, upd d d = d)
    (ds : List α) (x e : α) (l : List α)
    (h : x ∈ upsertAll key upd ds l)
    (hlast : lastFor key (key x) ds = some e) :
    upd x e = x := by
  induction ds generalizing l with
  | nil => cases hlast
  | cons d ds ih =>
    rw [lastFor_cons] at hlast
    cases hl : lastFor key (key x) ds with
    | some e2 =>
      rw [hl] at hlast
      cases hlast
      exact ih (upsert key upd d l) h hl
    | none =>
      rw [hl] at hlast
      by_cases hkd : key d = key x
      · rw [if_pos hkd] at hlast
        injection hlast with he
        subst he
        have hx : x ∈ upsert key upd d l :=
          mem_upsertAll_origin key upd hk ds x (upsert key upd d l) h hl
        rcases mem_upsert key upd d x l hx with ⟨y, hy, hxy⟩ | ⟨rfl, _⟩
        · subst hxy
          show upd (ow key upd d y) d = ow key upd d y
          rw [ow_key key upd hk d y] at hkd
          unfold ow
          by_cases hyk : key y = key d
          · rw [if_pos hyk]
            exact hover y d d
          · rw [if_neg hyk]
            exact absurd hkd.symm hyk
        · exact hself _
      · rw [if_neg hkd] at hlast
        cases hlast

theorem map_id_of_mem {l : List α} {f : α → α}
    (h : ∀ x ∈ l, f x = x) : l.map f = l := by
  induction l with
  | nil => rfl
  | cons a l ih =>
    rw [List.map_cons, h a (List.mem_cons_self a l),
      ih (fun x hx => h x (List.mem_cons_of_mem a hx))]

theorem upsertAll_of_allKeys (key : α → κ) (upd : α → α → α)
    (hk : ∀ x d, key (upd x d) = key x)
    (ds : List α) (l : List α)
    (h : ∀ d ∈ ds, hasKey key (key d) l = true) :
    upsertAll key upd ds l = l.map (owAll key upd ds) := by
  induction ds generalizing l with
  | nil => exact (map_id_of_mem (fun x _ => rfl)).symm
  | cons d ds ih =>
    show upsertAll key upd ds (upsert key upd d l) = _
    rw [upsert_of_hasKey key upd d l (h d (List.mem_cons_self d ds))]
    rw [ih (l.map (ow key upd d)) ?keys]
    · rw [List.map_map]
      rfl
    case keys =>
      intro e he
      rw [hasKey_map_ow key upd hk]
      exact h e (List.mem_cons_of_mem d he)

theorem upsertAll_idem (key : α → κ) (upd : α → α → α)
    (hk : ∀ x d, key (upd x d) = key x)
    (hover : ∀ x d e, upd (upd x d) e = upd x e)
    (hself : ∀ d, upd d d = d)
    (ds : List α) (l : List α) :
    upsertAll key upd ds (upsertAll key upd ds l) = upsertAll key upd ds l := by
  rw [upsertAll_of_allKeys key upd hk ds (upsertAll key upd ds l)
    (fun d hd => hasKey_upsertAll_of_mem key upd hk ds d l hd)]
  apply map_id_of_mem
  intro x hx
  rw [owAll_char key upd hk hover ds x]
  cases hl : lastFor key (key x) ds with
  | some e => exact mem_upsertAll_stable key upd hk hover hself ds x e l hx hl
  | none => rfl

theorem mem_upsertAll_field {β : Type} (key : α → κ) (upd : α → α → α)
    (lab : α → β) (hlab : ∀ x d, lab (upd x d) = lab x)
    (ds : List α) (x : α) (l : List α)
    (h : x ∈ upsertAll key upd ds l) :
    (∃ d ∈ ds, lab x = lab d) ∨ (∃ y ∈ l, lab x = lab y) := by
  induction ds generalizing l with
  | nil => exact Or.inr ⟨x, h, rfl⟩
  | cons d ds ih =>
    rcases ih (upsert key upd d l) h with hd | ⟨y, hy, hxy⟩
    · rcases hd with ⟨e, he, hxe⟩
      exact Or.inl ⟨e, List.mem_cons_of_mem d he, hxe⟩
    · rcases mem_upsert key upd d y l hy with ⟨z, hz, hyz⟩ | ⟨rfl, _⟩
      · subst hyz
        refine Or.inr ⟨z, hz, ?_⟩
        rw [hxy]
        unfold ow
        split
        · exact hlab z d
        · rfl
      · exact Or.inl ⟨y, List.mem_cons_self y ds, hxy⟩

theorem hasKey_append (key : α → κ) (k : κ) (l1 l2 : List α) :
    hasKey key k (l1 ++ l2) = (hasKey key k l1 || hasKey key k l2) :=
  List.any_append

end SyncLemmas

/-! ## The three kinds satisfy the mutator laws -/

theorem crMut_key : ∀ x d, crKey (crMut x d) = crKey x := fun _ _ => rfl

theorem crMut_over : ∀ x d e, crMut (crMut x d) e = crMut x e := fun _ _ _ => rfl

theorem crMut_self : ∀ d, crMut d d = d := fun _ => rfl

theorem crbMut_key : ∀ x d, crbKey (crbMut x d) = crbKey x := fun _ _ => rfl

theorem crbMut_over : ∀ x d e, crbMut (crbMut x d) e = crbMut x e := fun _ _ _ => rfl

theorem crbMut_self : ∀ d, crbMut d d = d := fun _ => rfl

theorem rbMut_key : ∀ x d, rbKey (rbMut x d) = rbKey x := fun _ _ => rfl

theorem rbMut_over : ∀ x d e, rbMut (rbMut x d) e = rbMut x e := fun _ _ _ => rfl

theorem rbMut_self : ∀ d, rbMut d d = d := fun _ => rfl

/-! ## Characterization of the fault-free materializer -/

theorem addFinalizerIfNeeded_of_mem (f : Faults) (g : Grant)
    (h : SpokeAuthorizationFinalizer ∈ g.finalizers) :
    addFinalizerIfNeeded f g = .ok (g, []) := by
  unfold addFinalizerIfNeeded
  rw [if_pos h]

theorem materializeRBs_noFaults (g : Grant) (u : String) (nss : List String) (s : SpokeState) :
    materializeRBs noFaults g u nss s =
      ({ s with roleBindings :=
          upsertAll rbKey rbMut (nss.map (givenRoleBinding g u)) s.roleBindings },
       .ok (), nss.map (fun n => WriteEvent.upsertRoleBinding .spoke g.name n)) := by
  induction nss generalizing s with
  | nil => rfl
  | cons n nss ih =>
    show ((materializeRBs noFaults g u nss _).1, (materializeRBs noFaults g u nss _).2.1,
      WriteEvent.upsertRoleBinding .spoke g.name n :: (materializeRBs noFaults g u nss _).2.2) = _
    rw [ih]
    rfl

theorem materialize_noFaults (g : Grant) (u o : String) (s : SpokeState) :
    materialize noFaults g u o s = (matSpoke g u o s, .ok (), matWrites g u o) := by
  unfold materialize matSpoke matWrites crDesireds crbDesireds rbDesireds
  cases hns : g.roleRefNamespaces with
  | none => rfl
  | some nss =>
    show ((materializeRBs noFaults g u nss _).1, (materializeRBs noFaults g u nss _).2.1,
      _ ++ (materializeRBs noFaults g u nss _).2.2) = _
    rw [materializeRBs_noFaults]
    rfl

/-! ## Characterization of the Cleanup Sweeper -/

theorem sweepSAItems_noFaults (items cur : List ServiceAccount) :
    sweepSAItems noFaults items cur =
      (cur.filter (fun y => !(items.any (fun x => y.name == x.name && y.ns == x.ns))),
       .ok (), items.map (fun x => WriteEvent.deleteServiceAccount .spoke x.name x.ns)) := by
  induction items generalizing cur with
  | nil =>
    simp only [sweepSAItems, List.any_nil, Bool.not_false, List.filter_true, List.map_nil]
  | cons x xs ih =>
    show (let rest := sweepSAItems noFaults xs
            (cur.filter fun y => !(y.name == x.name && y.ns == x.ns));
          (rest.1, rest.2.1, WriteEvent.deleteServiceAccount .spoke x.name x.ns :: rest.2.2)) = _
    rw [ih, List.filter_filter]
    simp only [List.map_cons, Prod.mk.injEq, and_true, true_and]
    congr 1
    funext y
    simp [List.any_cons, Bool.not_or, Bool.and_comm]

theorem sweepCRItems_noFaults (items cur : List ClusterRole) :
    sweepCRItems noFaults items cur =
      (cur.filter (fun y => !(items.any (fun x => y.name == x.name))),
       .ok (), items.map (fun x => WriteEvent.deleteClusterRole .spoke x.name)) := by
  induction items generalizing cur with
  | nil =>
    simp only [sweepCRItems, List.any_nil, Bool.not_false, List.filter_true, List.map_nil]
  | cons x xs ih =>
    show (let rest := sweepCRItems noFaults xs (cur.filter fun y => !(y.name == x.name));
          (rest.1, rest.2.1, WriteEvent.deleteClusterRole .spoke x.name :: rest.2.2)) = _
    rw [ih, List.filter_filter]
    simp only [List.map_cons, Prod.mk.injEq, and_true, true_and]
    congr 1
    funext y
    simp [List.any_cons, Bool.not_or, Bool.and_comm]

theorem sweepCRBItems_noFaults (items cur : List ClusterRoleBinding) :
    sweepCRBItems noFaults items cur =
      (cur.filter (fun y => !(items.any (fun x => y.name == x.name))),
       .ok (), items.map (fun x => WriteEvent.deleteClusterRoleBinding .spoke x.name)) := by
  induction items generalizing cur with
  | nil =>
    simp only [sweepCRBItems, List.any_nil, Bool.not_false, List.filter_true, List.map_nil]
  | cons x xs ih =>
    show (let rest := sweepCRBItems noFaults xs (cur.filter fun y => !(y.name == x.name));
          (rest.1, rest.2.1, WriteEvent.deleteClusterRoleBinding .spoke x.name :: rest.2.2)) = _
    rw [ih, List.filter_filter]
    simp only [List.map_cons, Prod.mk.injEq, and_true, true_and]
    congr 1
    funext y
    simp [List.any_cons, Bool.not_or, Bool.and_comm]

theorem phaseSA_noFaults (sel : Labels) (s : SpokeState) :
    phaseSA noFaults sel s =
      ({ s with serviceAccounts := s.serviceAccounts.filter
                  (fun y => !((s.serviceAccounts.filter (fun a => selMatches sel a.labels)).any
                    (fun x => y.name == x.name && y.ns == x.ns))) },
       .ok (), (s.serviceAccounts.filter (fun a => selMatches sel a.labels)).map
         (fun x => WriteEvent.deleteServiceAccount .spoke x.name x.ns)) := by
  show ({ s with serviceAccounts := (sweepSAItems noFaults _ _).1 },
        (sweepSAItems noFaults _ _).2.1, (sweepSAItems noFaults _ _).2.2) = _
  rw [sweepSAItems_noFaults]

theorem phaseCR_noFaults (sel : Labels) (s : SpokeState) :
    phaseCR noFaults sel s =
      ({ s with clusterRoles := s.clusterRoles.filter
                  (fun y => !((s.clusterRoles.filter (fun a => selMatches sel a.labels)).any
                    (fun x => y.name == x.name))) },
       .ok (), (s.clusterRoles.filter (fun a => selMatches sel a.labels)).map
         (fun x => WriteEvent.deleteClusterRole .spoke x.name)) := by
  show ({ s with clusterRoles := (sweepCRItems noFaults _ _).1 },
        (sweepCRItems noFaults _ _).2.1, (sweepCRItems noFaults _ _).2.2) = _
  rw [sweepCRItems_noFaults]

theorem phaseCRB_noFaults (sel : Labels) (s : SpokeState) :
    phaseCRB noFaults sel s =
      ({ s with clusterRoleBindings := s.clusterRoleBindings.filter
                  (fun y => !((s.clusterRoleBindings.filter (fun a => selMatches sel a.labels)).any
                    (fun x => y.name == x.name))) },
       .ok (), (s.clusterRoleBindings.filter (fun a => selMatches sel a.labels)).map
         (fun x => WriteEvent.deleteClusterRoleBinding .spoke x.name)) := by
  show ({ s with clusterRoleBindings := (sweepCRBItems noFaults _ _).1 },
        (sweepCRBItems noFaults _ _).2.1, (sweepCRBItems noFaults _ _).2.2) = _
  rw [sweepCRBItems_noFaults]

theorem materializeRBs_shape (f : Faults) (g : Grant) (u : String) :
    ∀ (nss : List String) (s : SpokeState),
      (materializeRBs f g u nss s).2.1 = .ok () ∨
      (materializeRBs f g u nss s).2.1 = .error .patchFailed
  | [], _ => Or.inl rfl
  | n :: nss, s => by
    by_cases hn : f.patchRBErr n = true
    · right
      simp only [materializeRBs, if_pos hn]
    · rcases materializeRBs_shape f g u nss
        { s with roleBindings := upsert rbKey rbMut (givenRoleBinding g u n) s.roleBindings }
        with h | h
      · left
        simpa only [materializeRBs, if_neg hn] using h
      · right
        simpa only [materializeRBs, if_neg hn] using h

theorem materialize_shape (f : Faults) (g : Grant) (u o : String) (s : SpokeState) :
    (materialize f g u o s).2.1 = .ok () ∨
    (materialize f g u o s).2.1 = .error .patchFailed := by
  simp only [materialize]
  split
  · exact Or.inr rfl
  · split
    · exact Or.inr rfl
    · split
      · split
        · exact Or.inr rfl
        · exact Or.inl rfl
      · exact materializeRBs_shape f g u _ _

theorem addFinalizerIfNeeded_shape (f : Faults) (g : Grant) :
    (∃ g2 w0, addFinalizerIfNeeded f g = .ok (g2, w0)) ∨
    addFinalizerIfNeeded f g = .error .updateFailed := by
  unfold addFinalizerIfNeeded
  split
  · exact Or.inl ⟨g, [], rfl⟩
  · split
    · exact Or.inr rfl
    · exact Or.inl ⟨_, _, rfl⟩

theorem phaseSA_frame (f : Faults) (sel : Labels) (s : SpokeState) :
    (phaseSA f sel s).1.clusterRoles = s.clusterRoles ∧
    (phaseSA f sel s).1.clusterRoleBindings = s.clusterRoleBindings ∧
    (phaseSA f sel s).1.roleBindings = s.roleBindings := by
  unfold phaseSA
  split
  · exact ⟨rfl, rfl, rfl⟩
  · exact ⟨rfl, rfl, rfl⟩

theorem phaseCR_frame (f : Faults) (sel : Labels) (s : SpokeState) :
    (phaseCR f sel s).1.serviceAccounts = s.serviceAccounts ∧
    (phaseCR f sel s).1.clusterRoleBindings = s.clusterRoleBindings ∧
    (phaseCR f sel s).1.roleBindings = s.roleBindings := by
  unfold phaseCR
  split
  · exact ⟨rfl, rfl, rfl⟩
  · exact ⟨rfl, rfl, rfl⟩

theorem phaseCRB_frame (f : Faults) (sel : Labels) (s : SpokeState) :
    (phaseCRB f sel s).1.serviceAccounts = s.serviceAccounts ∧
    (phaseCRB f sel s).1.clusterRoles = s.clusterRoles ∧
    (phaseCRB f sel s).1.roleBindings = s.roleBindings := by
  unfold phaseCRB
  split
  · exact ⟨rfl, rfl, rfl⟩
  · exact ⟨rfl, rfl, rfl⟩

theorem sweepSAItems_shape (f : Faults) :
    ∀ (items cur : List ServiceAccount),
      (sweepSAItems f items cur).2.1 = .ok () ∨
      (sweepSAItems f items cur).2.1 = .error .deleteFailed
  | [], _ => Or.inl rfl
  | x :: xs, cur => by
    by_cases hx : f.deleteSAErr x = true
    · right
      simp only [sweepSAItems, if_pos hx]
    · rcases sweepSAItems_shape f xs
        (cur.filter fun y => !(y.name == x.name && y.ns == x.ns)) with h | h
      · left
        simpa only [sweepSAItems, if_neg hx] using h
      · right
        simpa only [sweepSAItems, if_neg hx] using h

theorem sweepCRItems_shape (f : Faults) :
    ∀ (items cur : List ClusterRole),
      (sweepCRItems f items cur).2.1 = .ok () ∨
      (sweepCRItems f items cur).2.1 = .error .deleteFailed
  | [], _ => Or.inl rfl
  | x :: xs, cur => by
    by_cases hx : f.deleteCRErr x = true
    · right
      simp only [sweepCRItems, if_pos hx]
    · rcases sweepCRItems_shape f xs (cur.filter fun y => !(y.name == x.name)) with h | h
      · left
        simpa only [sweepCRItems, if_neg hx] using h
      · right
        simpa only [sweepCRItems, if_neg hx] using h

theorem sweepCRBItems_shape (f : Faults) :
    ∀ (items cur : List ClusterRoleBinding),
      (sweepCRBItems f items cur).2.1 = .ok () ∨
      (sweepCRBItems f items cur).2.1 = .error .deleteFailed
  | [], _ => Or.inl rfl
  | x :: xs, cur => by
    by_cases hx : f.deleteCRBErr x = true
    · right
      simp only [sweepCRBItems, if_pos hx]
    · rcases sweepCRBItems_shape f xs (cur.filter fun y => !(y.name == x.name)) with h | h
      · left
        simpa only [sweepCRBItems, if_neg hx] using h
      · right
        simpa only [sweepCRBItems, if_neg hx] using h

theorem phaseSA_shape (f : Faults) (sel : Labels) (s : SpokeState) :
    (phaseSA f sel s).2.1 = .ok () ∨ (phaseSA f sel s).2.1 = .error .deleteFailed := by
  unfold phaseSA
  split
  · exact Or.inl rfl
  · exact sweepSAItems_shape f _ _

theorem phaseCR_shape (f : Faults) (sel : Labels) (s : SpokeState) :
    (phaseCR f sel s).2.1 = .ok () ∨ (phaseCR f sel s).2.1 = .error .deleteFailed := by
  unfold phaseCR
  split
  · exact Or.inl rfl
  · exact sweepCRItems_shape f _ _

theorem phaseCRB_shape (f : Faults) (sel : Labels) (s : SpokeState) :
    (phaseCRB f sel s).2.1 = .ok () ∨ (phaseCRB f sel s).2.1 = .error .deleteFailed := by
  unfold phaseCRB
  split
  · exact Or.inl rfl
  · exact sweepCRBItems_shape f _ _

theorem dar_shape (f : Faults) (sel : Labels) (s : SpokeState) :
    (deleteAssociatedResources f sel s).2.1 = .ok () ∨
    (deleteAssociatedResources f sel s).2.1 = .error .deleteFailed := by
  simp only [deleteAssociatedResources]
  rcases phaseSA_shape f sel s with h1 | h1
  · rw [h1]
    rcases phaseCR_shape f sel (phaseSA f sel s).1 with h2 | h2
    · rw [h2]
      exact phaseCRB_shape f sel _
    · rw [h2]
      exact Or.inr rfl
  · rw [h1]
    exact Or.inr rfl

theorem sweepSAItems_writes (f : Faults) :
    ∀ (items cur : List ServiceAccount),
      ∀ ev ∈ (sweepSAItems f items cur).2.2, ev.isGrantUpdate = false
  | [], _ => by
    intro ev h
    cases h
  | x :: xs, cur => by
    intro ev h
    by_cases hx : f.deleteSAErr x = true
    · simp only [sweepSAItems, if_pos hx] at h
      cases h
    · simp only [sweepSAItems, if_neg hx] at h
      rcases List.mem_cons.1 h with rfl | h2
      · rfl
      · exact sweepSAItems_writes f xs _ ev h2

theorem sweepCRItems_writes (f : Faults) :
    ∀ (items cur : List ClusterRole),
      ∀ ev ∈ (sweepCRItems f items cur).2.2, ev.isGrantUpdate = false
  | [], _ => by
    intro ev h
    cases h
  | x :: xs, cur => by
    intro ev h
    by_cases hx : f.deleteCRErr x = true
    · simp only [sweepCRItems, if_pos hx] at h
      cases h
    · simp only [sweepCRItems, if_neg hx] at h
      rcases List.mem_cons.1 h with rfl | h2
      · rfl
      · exact sweepCRItems_writes f xs _ ev h2

theorem sweepCRBItems_writes (f : Faults) :
    ∀ (items cur : List ClusterRoleBinding),
      ∀ ev ∈ (sweepCRBItems f items cur).2.2, ev.isGrantUpdate = false
  | [], _ => by
    intro ev h
    cases h
  | x :: xs, cur => by
    intro ev h
    by_cases hx : f.deleteCRBErr x = true
    · simp only [sweepCRBItems, if_pos hx] at h
      cases h
    · simp only [sweepCRBItems, if_neg hx] at h
      rcases List.mem_cons.1 h with rfl | h2
      · rfl
      · exact sweepCRBItems_writes f xs _ ev h2

theorem phaseSA_writes (f : Faults) (sel : Labels) (s : SpokeState) :
    ∀ ev ∈ (phaseSA f sel s).2.2, ev.isGrantUpdate = false := by
  unfold phaseSA
  split
  · intro ev h
    cases h
  · exact sweepSAItems_writes f _ _

theorem phaseCR_writes (f : Faults) (sel : Labels) (s : SpokeState) :
    ∀ ev ∈ (phaseCR f sel s).2.2, ev.isGrantUpdate = false := by
  unfold phaseCR
  split
  · intro ev h
    cases h
  · exact sweepCRItems_writes f _ _

theorem phaseCRB_writes (f : Faults) (sel : Labels) (s : SpokeState) :
    ∀ ev ∈ (phaseCRB f sel s).2.2, ev.isGrantUpdate = false := by
  unfold phaseCRB
  split
  · intro ev h
    cases h
  · exact sweepCRBItems_writes f _ _

theorem dar_writes (f : Faults) (sel : Labels) (s : SpokeState) :
    ∀ ev ∈ (deleteAssociatedResources f sel s).2.2, ev.isGrantUpdate = false := by
  simp only [deleteAssociatedResources]
  have hw1 := phaseSA_writes f sel s
  rcases phaseSA_shape f sel s with h1 | h1
  · rw [h1]
    have hw2 := phaseCR_writes f sel (phaseSA f sel s).1
    rcases phaseCR_shape f sel (phaseSA f sel s).1 with h2 | h2
    · rw [h2]
      have hw3 := phaseCRB_writes f sel (phaseCR f sel (phaseSA f sel s).1).1
      intro ev h
      rcases List.mem_append.1 h with h | h
      · rcases List.mem_append.1 h with h | h
        · exact hw1 ev h
        · exact hw2 ev h
      · exact hw3 ev h
    · rw [h2]
      intro ev h
      rcases List.mem_append.1 h with h | h
      · exact hw1 ev h
      · exact hw2 ev h
  · rw [h1]
    exact hw1

theorem filter_sweep_clean_sa (sel : Labels) (l : List ServiceAccount) :
    ((l.filter (fun y => !((l.filter (fun a => selMatches sel a.labels)).any
        (fun x => y.name == x.name && y.ns == x.ns)))).filter
      (fun a => selMatches sel a.labels)) = [] := by
  rw [List.filter_eq_nil_iff]
  intro a ha hmatch
  rcases List.mem_filter.1 ha with ⟨hal, hpred⟩
  have hmem : a ∈ l.filter (fun b => selMatches sel b.labels) :=
    List.mem_filter.2 ⟨hal, hmatch⟩
  have hany : ((l.filter (fun b => selMatches sel b.labels)).any
      (fun x => a.name == x.name && a.ns == x.ns)) = true :=
    List.any_eq_true.2 ⟨a, hmem, by simp⟩
  rw [hany] at hpred
  simp at hpred

theorem filter_sweep_clean_cr (sel : Labels) (l : List ClusterRole) :
    ((l.filter (fun y => !((l.filter (fun a => selMatches sel a.labels)).any
        (fun x => y.name == x.name)))).filter
      (fun a => selMatches sel a.labels)) = [] := by
  rw [List.filter_eq_nil_iff]
  intro a ha hmatch
  rcases List.mem_filter.1 ha with ⟨hal, hpred⟩
  have hmem : a ∈ l.filter (fun b => selMatches sel b.labels) :=
    List.mem_filter.2 ⟨hal, hmatch⟩
  have hany : ((l.filter (fun b => selMatches sel b.labels)).any
      (fun x => a.name == x.name)) = true :=
    List.any_eq_true.2 ⟨a, hmem, by simp⟩
  rw [hany] at hpred
  simp at hpred

theorem filter_sweep_clean_crb (sel : Labels) (l : List ClusterRoleBinding) :
    ((l.filter (fun y => !((l.filter (fun a => selMatches sel a.labels)).any
        (fun x => y.name == x.name)))).filter
      (fun a => selMatches sel a.labels)) = [] := by
  rw [List.filter_eq_nil_iff]
  intro a ha hmatch
  rcases List.mem_filter.1 ha with ⟨hal, hpred⟩
  have hmem : a ∈ l.filter (fun b => selMatches sel b.labels) :=
    List.mem_filter.2 ⟨hal, hmatch⟩
  have hany : ((l.filter (fun b => selMatches sel b.labels)).any
      (fun x => a.name == x.name)) = true :=
    List.any_eq_true.2 ⟨a, hmem, by simp⟩
  rw [hany] at hpred
  simp at hpred

theorem dar_noFaults_clean (sel : Labels) (s : SpokeState) :
    (deleteAssociatedResources noFaults sel s).2.1 = .ok () ∧
    ((deleteAssociatedResources noFaults sel s).1.serviceAccounts.filter
      (fun a => selMatches sel a.labels)) = [] ∧
    ((deleteAssociatedResources noFaults sel s).1.clusterRoles.filter
      (fun a => selMatches sel a.labels)) = [] ∧
    ((deleteAssociatedResources noFaults sel s).1.clusterRoleBindings.filter
      (fun a => selMatches sel a.labels)) = [] ∧
    (deleteAssociatedResources noFaults sel s).1.roleBindings = s.roleBindings := by
  simp only [deleteAssociatedResources, phaseSA_noFaults, phaseCR_noFaults, phaseCRB_noFaults]
  refine ⟨trivial, ?_, ?_, ?_, trivial⟩
  · exact filter_sweep_clean_sa sel s.serviceAccounts
  · exact filter_sweep_clean_cr sel s.clusterRoles
  · exact filter_sweep_clean_crb sel s.clusterRoleBindings

theorem reconcile_terminating_err (f : Faults) (g : Grant) (s : SpokeState)
    (subj : RbacSubject) (rest : List RbacSubject) (e : RErr)
    (hs : g.subjects = subj :: rest) (hdel : g.deletionMarked = true)
    (hfin : SpokeAuthorizationFinalizer ∈ g.finalizers)
    (herr : (deleteAssociatedResources f g.labels s).2.1 = .error e) :
    Reconcile f (.found g) s =
      ⟨.error e, (deleteAssociatedResources f g.labels s).1,
       (deleteAssociatedResources f g.labels s).2.2⟩ := by
  simp only [Reconcile, hs, hdel, if_true, if_pos hfin, herr]

theorem reconcile_terminating_ok (f : Faults) (g : Grant) (s : SpokeState)
    (subj : RbacSubject) (rest : List RbacSubject)
    (hs : g.subjects = subj :: rest) (hdel : g.deletionMarked = true)
    (hfin : SpokeAuthorizationFinalizer ∈ g.finalizers)
    (hok : (deleteAssociatedResources f g.labels s).2.1 = .ok ())
    (hupd : f.updateGrantErr = false) :
    Reconcile f (.found g) s =
      ⟨.ok (), (deleteAssociatedResources f g.labels s).1,
       (deleteAssociatedResources f g.labels s).2.2 ++
         [WriteEvent.updateGrant .spoke
           { g with finalizers :=
               g.finalizers.filter fun x => !(x == SpokeAuthorizationFinalizer) }]⟩ := by
  simp only [Reconcile, hs, hdel, if_true, if_pos hfin, hok, hupd, Bool.false_eq_true, if_false]

theorem reconcile_active (g : Grant) (s : SpokeState) (subj : RbacSubject)
    (rest : List RbacSubject)
    (hs : g.subjects = subj :: rest) (hdel : g.deletionMarked = false)
    (hfin : SpokeAuthorizationFinalizer ∈ g.finalizers) :
    Reconcile noFaults (.found g) s =
      ⟨.ok (), matSpoke g subj.name g.hubOwnerID s, matWrites g subj.name g.hubOwnerID⟩ := by
  have h1 : addFinalizerIfNeeded noFaults g = .ok (g, []) :=
    addFinalizerIfNeeded_of_mem _ _ hfin
  simp only [Reconcile, hs, hdel, getUserIDAndHubOwnerIDFromLabelValues, h1,
    materialize_noFaults, Bool.false_eq_true, if_false, List.nil_append]

theorem matSpoke_idem (g : Grant) (u o : String) (s : SpokeState) :
    matSpoke g u o (matSpoke g u o s) = matSpoke g u o s := by
  unfold matSpoke
  congr 1
  · exact upsertAll_idem crKey crMut crMut_key crMut_over crMut_self _ _
  · exact upsertAll_idem crbKey crbMut crbMut_key crbMut_over crbMut_self _ _
  · exact upsertAll_idem rbKey rbMut rbMut_key rbMut_over rbMut_self _ _

theorem reconcile_terminating_updfail (f : Faults) (g : Grant) (s : SpokeState)
    (subj : RbacSubject) (rest : List RbacSubject)
    (hs : g.subjects = subj :: rest) (hdel : g.deletionMarked = true)
    (hfin : SpokeAuthorizationFinalizer ∈ g.finalizers)
    (hok : (deleteAssociatedResources f g.labels s).2.1 = .ok ())
    (hupd : f.updateGrantErr = true) :
    Reconcile f (.found g) s =
      ⟨.error .updateFailed, (deleteAssociatedResources f g.labels s).1,
       (deleteAssociatedResources f g.labels s).2.2⟩ := by
  simp only [Reconcile, hs, hdel, if_true, if_pos hfin, hok, hupd]

theorem reconcile_terminating_nofin (f : Faults) (g : Grant) (s : SpokeState)
    (subj : RbacSubject) (rest : List RbacSubject)
    (hs : g.subjects = subj :: rest) (hdel : g.deletionMarked = true)
    (hfin : SpokeAuthorizationFinalizer ∉ g.finalizers) :
    Reconcile f (.found g) s = ⟨.ok (), s, []⟩ := by
  simp only [Reconcile, hs, hdel, if_true, if_neg hfin]

theorem reconcile_addfin_err (f : Faults) (g : Grant) (s : SpokeState)
    (subj : RbacSubject) (rest : List RbacSubject) (e : RErr)
    (hs : g.subjects = subj :: rest) (hdel : g.deletionMarked = false)
    (herr : addFinalizerIfNeeded f g = .error e) :
    Reconcile f (.found g) s = ⟨.error e, s, []⟩ := by
  simp only [Reconcile, hs, hdel, Bool.false_eq_true, if_false, herr]

theorem reconcile_addfin_ok (f : Faults) (g : Grant) (s : SpokeState)
    (subj : RbacSubject) (rest : List RbacSubject) (g2 : Grant) (w0 : List WriteEvent)
    (hs : g.subjects = subj :: rest) (hdel : g.deletionMarked = false)
    (hok : addFinalizerIfNeeded f g = .ok (g2, w0)) :
    Reconcile f (.found g) s =
      ⟨(materialize f g2 subj.name g.hubOwnerID s).2.1,
       (materialize f g2 subj.name g.hubOwnerID s).1,
       w0 ++ (materialize f g2 subj.name g.hubOwnerID s).2.2⟩ := by
  simp only [Reconcile, hs, hdel, Bool.false_eq_true, if_false, hok,
    getUserIDAndHubOwnerIDFromLabelValues]

theorem reconcile_found_shape (f : Faults) (g : Grant) (s : SpokeState)
    (subj : RbacSubject) (rest : List RbacSubject)
    (hs : g.subjects = subj :: rest) :
    (Reconcile f (.found g) s).result = .ok () ∨
    (Reconcile f (.found g) s).result = .error .deleteFailed ∨
    (Reconcile f (.found g) s).result = .error .updateFailed ∨
    (Reconcile f (.found g) s).result = .error .patchFailed := by
  by_cases hdel : g.deletionMarked = true
  · by_cases hfin : SpokeAuthorizationFinalizer ∈ g.finalizers
    · rcases dar_shape f g.labels s with hok | herr
      · by_cases hu : f.updateGrantErr = true
        · rw [reconcile_terminating_updfail f g s subj rest hs hdel hfin hok hu]
          right
          right
          left
          rfl
        · rw [reconcile_terminating_ok f g s subj rest hs hdel hfin hok
            (Bool.not_eq_true _ ▸ hu)]
          left
          rfl
      · rw [reconcile_terminating_err f g s subj rest .deleteFailed hs hdel hfin herr]
        right
        left
        rfl
    · rw [reconcile_terminating_nofin f g s subj rest hs hdel hfin]
      left
      rfl
  · have hdel2 : g.deletionMarked = false := Bool.not_eq_true _ ▸ hdel
    rcases addFinalizerIfNeeded_shape f g with ⟨g2, w0, hok⟩ | herr
    · rw [reconcile_addfin_ok f g s subj rest g2 w0 hs hdel2 hok]
      rcases materialize_shape f g2 subj.name g.hubOwnerID s with h | h
      · left
        exact h
      · right
        right
        right
        exact h
    · rw [reconcile_addfin_err f g s subj rest .updateFailed hs hdel2 herr]
      right
      right
      left
      rfl

theorem hasKey_rb_of_name_filter (l : List RoleBinding) (nm n : String)
    (h : l.filter (fun rb => rb.name == nm) = []) :
    hasKey rbKey (nm, n) l = false := by
  unfold hasKey
  apply Bool.eq_false_iff.2
  intro hany
  rcases List.any_eq_true.1 hany with ⟨x, hx, hpx⟩
  have hk : rbKey x = (nm, n) := of_decide_eq_true hpx
  have hnm : x.name = nm := congrArg Prod.fst hk
  apply List.filter_eq_nil_iff.1 h x hx
  simp [hnm]

/-! ## The claims -/

/-- C1: as stated the claim is false.  For a Grant whose role scope is a list
of namespaces, the derived namespace-scoped grant bindings carry the Grant's
exact label set, yet a successful cleanup run leaves them in place and still
discoverable by listing: here the spoke state produced by reconciling the
Active grant (scope namespaces = [a]) is swept after deletion is requested;
the run succeeds but one RoleBinding whose label set equals the Grant's
labels survives. -/
theorem C1_counterexample_scoped_binding_survives :
    (Reconcile noFaults
      (.found
        ⟨"g1", [("app", "g1")], "alice", "hub1", [⟨"", "User", "alice", ""⟩], "viewer", some ["a"], true, [SpokeAuthorizationFinalizer]⟩)
      ((Reconcile noFaults
        (.found
          ⟨"g1", [("app", "g1")], "alice", "hub1", [⟨"", "User", "alice", ""⟩], "viewer", some ["a"], false, [SpokeAuthorizationFinalizer]⟩)
        ⟨[], [], [], []⟩).spoke)).isOk = true ∧
    ((Reconcile noFaults
      (.found
        ⟨"g1", [("app", "g1")], "alice", "hub1", [⟨"", "User", "alice", ""⟩], "viewer", some ["a"], true, [SpokeAuthorizationFinalizer]⟩)
      ((Reconcile noFaults
        (.found
          ⟨"g1", [("app", "g1")], "alice", "hub1", [⟨"", "User", "alice", ""⟩], "viewer", some ["a"], false, [SpokeAuthorizationFinalizer]⟩)
        ⟨[], [], [], []⟩).spoke)).spoke.roleBindings.filter
      (fun rb => rb.labels == [("app", "g1")])).length = 1 := by
  exact ⟨by decide, by decide⟩

/-- C1 (amended): for every Terminating Grant carrying the finalizer, a
fault-free run succeeds, issues the finalizer-removing grant update, and no
object of the three swept kinds (service accounts, cluster roles, cluster
role bindings) matching the Grant's label set remains discoverable by
listing; namespace-scoped grant bindings are not swept, so the RoleBinding
list is left untouched. -/
theorem C1_amended_cleanup_release (g : Grant) (s : SpokeState)
    (subj : RbacSubject) (rest : List RbacSubject)
    (hs : g.subjects = subj :: rest) (hdel : g.deletionMarked = true)
    (hfin : SpokeAuthorizationFinalizer ∈ g.finalizers) :
    (Reconcile noFaults (.found g) s).result = .ok () ∧
    (WriteEvent.updateGrant .spoke
        { g with finalizers :=
            g.finalizers.filter fun x => !(x == SpokeAuthorizationFinalizer) })
      ∈ (Reconcile noFaults (.found g) s).writes ∧
    ((Reconcile noFaults (.found g) s).spoke.serviceAccounts.filter
      (fun a => selMatches g.labels a.labels)) = [] ∧
    ((Reconcile noFaults (.found g) s).spoke.clusterRoles.filter
      (fun a => selMatches g.labels a.labels)) = [] ∧
    ((Reconcile noFaults (.found g) s).spoke.clusterRoleBindings.filter
      (fun a => selMatches g.labels a.labels)) = [] ∧
    (Reconcile noFaults (.found g) s).spoke.roleBindings = s.roleBindings := by
  have hc := dar_noFaults_clean g.labels s
  rw [reconcile_terminating_ok noFaults g s subj rest hs hdel hfin hc.1 rfl]
  exact ⟨rfl, List.mem_append.2 (Or.inr (List.mem_singleton.2 rfl)),
    hc.2.1, hc.2.2.1, hc.2.2.2.1, hc.2.2.2.2⟩

/-- C1 amended witness: concrete instance. -/
theorem C1_amended_cleanup_release_witness :
    ((Reconcile noFaults
        (.found ⟨"g1", [("app", "g1")], "alice", "hub1",
                 [⟨"", "User", "alice", ""⟩], "viewer", some ["a"], true,
                 [SpokeAuthorizationFinalizer]⟩)
        ⟨[], [], [], [⟨"g1", "a", [("app", "g1")], [⟨"", "User", "alice", ""⟩],
                       ⟨"rbac.authorization.k8s.io", "Role", "viewer"⟩⟩]⟩).result
      = .ok ()) ∧
    ((Reconcile noFaults
        (.found ⟨"g1", [("app", "g1")], "alice", "hub1",
                 [⟨"", "User", "alice", ""⟩], "viewer", some ["a"], true,
                 [SpokeAuthorizationFinalizer]⟩)
        ⟨[], [], [], [⟨"g1", "a", [("app", "g1")], [⟨"", "User", "alice", ""⟩],
                       ⟨"rbac.authorization.k8s.io", "Role", "viewer"⟩⟩]⟩).spoke.clusterRoles.filter
      (fun a => selMatches [("app", "g1")] a.labels)) = [] := by
  have h := C1_amended_cleanup_release
    ⟨"g1", [("app", "g1")], "alice", "hub1",
     [⟨"", "User", "alice", ""⟩], "viewer", some ["a"], true,
     [SpokeAuthorizationFinalizer]⟩
    ⟨[], [], [], [⟨"g1", "a", [("app", "g1")], [⟨"", "User", "alice", ""⟩],
                   ⟨"rbac.authorization.k8s.io", "Role", "viewer"⟩⟩]⟩
    ⟨"", "User", "alice", ""⟩ [] rfl rfl (by decide)
  exact ⟨h.1, h.2.2.2.1⟩

/-- C6: invoking the engine twice in succession on the same unchanged Active
Grant (finalizer present, no deletion marker) leaves the spoke state after
the second fault-free invocation identical to the state after the first. -/
theorem C6_second_invocation_noop (g : Grant) (s : SpokeState)
    (subj : RbacSubject) (rest : List RbacSubject)
    (hs : g.subjects = subj :: rest) (hdel : g.deletionMarked = false)
    (hfin : SpokeAuthorizationFinalizer ∈ g.finalizers) :
    (Reconcile noFaults (.found g)
        ((Reconcile noFaults (.found g) s).spoke)).spoke =
      (Reconcile noFaults (.found g) s).spoke := by
  rw [reconcile_active g s subj rest hs hdel hfin,
    reconcile_active g _ subj rest hs hdel hfin]
  exact matSpoke_idem g subj.name g.hubOwnerID s

/-- C6 witness: concrete instance. -/
theorem C6_second_invocation_noop_witness :
    (Reconcile noFaults
        (.found ⟨"g1", [("app", "g1")], "alice", "hub1",
                 [⟨"", "User", "alice", ""⟩], "viewer", none, false,
                 [SpokeAuthorizationFinalizer]⟩)
        ((Reconcile noFaults
            (.found ⟨"g1", [("app", "g1")], "alice", "hub1",
                     [⟨"", "User", "alice", ""⟩], "viewer", none, false,
                     [SpokeAuthorizationFinalizer]⟩)
            ⟨[], [], [], []⟩).spoke)).spoke =
      (Reconcile noFaults
        (.found ⟨"g1", [("app", "g1")], "alice", "hub1",
                 [⟨"", "User", "alice", ""⟩], "viewer", none, false,
                 [SpokeAuthorizationFinalizer]⟩)
        ⟨[], [], [], []⟩).spoke :=
  C6_second_invocation_noop
    ⟨"g1", [("app", "g1")], "alice", "hub1",
     [⟨"", "User", "alice", ""⟩], "viewer", none, false,
     [SpokeAuthorizationFinalizer]⟩
    ⟨[], [], [], []⟩ ⟨"", "User", "alice", ""⟩ [] rfl rfl (by decide)

/-- C5: for every Active Grant scoped to three distinct namespaces, one
fault-free reconciliation starting from a spoke state holding no role binding
named after the Grant succeeds and produces exactly three namespace-scoped
grant bindings, one per listed namespace, each named after the Grant and each
referencing the Grant's role as a namespace-scoped Role reference. -/
theorem C5_namespace_fanout (g : Grant) (s : SpokeState)
    (subj : RbacSubject) (rest : List RbacSubject) (nsa nsb nsc : String)
    (hs : g.subjects = subj :: rest) (hdel : g.deletionMarked = false)
    (hfin : SpokeAuthorizationFinalizer ∈ g.finalizers)
    (hns : g.roleRefNamespaces = some [nsa, nsb, nsc])
    (hab : nsa ≠ nsb) (hac : nsa ≠ nsc) (hbc : nsb ≠ nsc)
    (hclean : s.roleBindings.filter (fun rb => rb.name == g.name) = []) :
    (Reconcile noFaults (.found g) s).result = .ok () ∧
    (Reconcile noFaults (.found g) s).spoke.roleBindings =
      s.roleBindings ++
        [givenRoleBinding g subj.name nsa, givenRoleBinding g subj.name nsb,
         givenRoleBinding g subj.name nsc] ∧
    (Reconcile noFaults (.found g) s).spoke.roleBindings.filter
        (fun rb => rb.name == g.name) =
      [givenRoleBinding g subj.name nsa, givenRoleBinding g subj.name nsb,
       givenRoleBinding g subj.name nsc] := by
  rw [reconcile_active g s subj rest hs hdel hfin]
  have hds : rbDesireds g subj.name =
      [givenRoleBinding g subj.name nsa, givenRoleBinding g subj.name nsb,
       givenRoleBinding g subj.name nsc] := by
    simp [rbDesireds, hns]
  have h1 : hasKey rbKey (rbKey (givenRoleBinding g subj.name nsa)) s.roleBindings = false :=
    hasKey_rb_of_name_filter s.roleBindings g.name nsa hclean
  have e1 : upsert rbKey rbMut (givenRoleBinding g subj.name nsa) s.roleBindings =
      s.roleBindings ++ [givenRoleBinding g subj.name nsa] :=
    upsert_of_not_hasKey _ _ _ _ h1
  have h2 : hasKey rbKey (rbKey (givenRoleBinding g subj.name nsb))
      (s.roleBindings ++ [givenRoleBinding g subj.name nsa]) = false := by
    rw [hasKey_append]
    rw [show rbKey (givenRoleBinding g subj.name nsb) = (g.name, nsb) from rfl]
    rw [hasKey_rb_of_name_filter s.roleBindings g.name nsb hclean]
    simp [hasKey, rbKey, givenRoleBinding, Prod.ext_iff, hab]
  have e2 : upsert rbKey rbMut (givenRoleBinding g subj.name nsb)
      (s.roleBindings ++ [givenRoleBinding g subj.name nsa]) =
      s.roleBindings ++ [givenRoleBinding g subj.name nsa] ++
        [givenRoleBinding g subj.name nsb] :=
    upsert_of_not_hasKey _ _ _ _ h2
  have h3 : hasKey rbKey (rbKey (givenRoleBinding g subj.name nsc))
      (s.roleBindings ++ [givenRoleBinding g subj.name nsa] ++
        [givenRoleBinding g subj.name nsb]) = false := by
    rw [hasKey_append, hasKey_append]
    rw [show rbKey (givenRoleBinding g subj.name nsc) = (g.name, nsc) from rfl]
    rw [hasKey_rb_of_name_filter s.roleBindings g.name nsc hclean]
    simp [hasKey, rbKey, givenRoleBinding, Prod.ext_iff, hac, hbc]
  have e3 : upsert rbKey rbMut (givenRoleBinding g subj.name nsc)
      (s.roleBindings ++ [givenRoleBinding g subj.name nsa] ++
        [givenRoleBinding g subj.name nsb]) =
      s.roleBindings ++ [givenRoleBinding g subj.name nsa] ++
        [givenRoleBinding g subj.name nsb] ++ [givenRoleBinding g subj.name nsc] :=
    upsert_of_not_hasKey _ _ _ _ h3
  have hrb : upsertAll rbKey rbMut (rbDesireds g subj.name) s.roleBindings =
      s.roleBindings ++
        [givenRoleBinding g subj.name nsa, givenRoleBinding g subj.name nsb,
         givenRoleBinding g subj.name nsc] := by
    rw [hds]
    show upsert rbKey rbMut (givenRoleBinding g subj.name nsc)
        (upsert rbKey rbMut (givenRoleBinding g subj.name nsb)
          (upsert rbKey rbMut (givenRoleBinding g subj.name nsa) s.roleBindings)) = _
    rw [e1, e2, e3]
    simp
  refine ⟨rfl, hrb, ?_⟩
  show (upsertAll rbKey rbMut (rbDesireds g subj.name) s.roleBindings).filter
      (fun rb => rb.name == g.name) = _
  rw [hrb, List.filter_append, hclean]
  simp [givenRoleBinding]

/-- C5 witness: concrete instance with namespaces a, b, c. -/
theorem C5_namespace_fanout_witness :
    ((Reconcile noFaults
        (.found ⟨"g1", [("app", "g1")], "alice", "hub1",
                 [⟨"", "User", "alice", ""⟩], "viewer", some ["a", "b", "c"], false,
                 [SpokeAuthorizationFinalizer]⟩)
        ⟨[], [], [], []⟩).result = .ok ()) ∧
    ((Reconcile noFaults
        (.found ⟨"g1", [("app", "g1")], "alice", "hub1",
                 [⟨"", "User", "alice", ""⟩], "viewer", some ["a", "b", "c"], false,
                 [SpokeAuthorizationFinalizer]⟩)
        ⟨[], [], [], []⟩).spoke.roleBindings.filter (fun rb => rb.name == "g1")) =
      [givenRoleBinding
        ⟨"g1", [("app", "g1")], "alice", "hub1",
         [⟨"", "User", "alice", ""⟩], "viewer", some ["a", "b", "c"], false,
         [SpokeAuthorizationFinalizer]⟩ "alice" "a",
       givenRoleBinding
        ⟨"g1", [("app", "g1")], "alice", "hub1",
         [⟨"", "User", "alice", ""⟩], "viewer", some ["a", "b", "c"], false,
         [SpokeAuthorizationFinalizer]⟩ "alice" "b",
       givenRoleBinding
        ⟨"g1", [("app", "g1")], "alice", "hub1",
         [⟨"", "User", "alice", ""⟩], "viewer", some ["a", "b", "c"], false,
         [SpokeAuthorizationFinalizer]⟩ "alice" "c"] := by
  have h := C5_namespace_fanout
    ⟨"g1", [("app", "g1")], "alice", "hub1",
     [⟨"", "User", "alice", ""⟩], "viewer", some ["a", "b", "c"], false,
     [SpokeAuthorizationFinalizer]⟩
    ⟨[], [], [], []⟩ ⟨"", "User", "alice", ""⟩ [] "a" "b" "c"
    rfl rfl (by decide) rfl (by decide) (by decide) (by decide) rfl
  exact ⟨h.1, h.2.2⟩

/-- C8: in the cleanup sweeper, a listing error for any of the three kinds is
swallowed and treated as no matches (the pass does nothing and reports
success, so the sweep continues with the next kind), while a delete error is
propagated immediately: the whole sweep returns that error and the remaining
passes never run (the later kinds' store lists are untouched). -/
theorem C8_sweep_error_policy (f : Faults) (sel : Labels) (s : SpokeState) :
    (f.listSAErr = true → phaseSA f sel s = (s, .ok (), [])) ∧
    (f.listCRErr = true → phaseCR f sel s = (s, .ok (), [])) ∧
    (f.listCRBErr = true → phaseCRB f sel s = (s, .ok (), [])) ∧
    (∀ e s1 w1, phaseSA f sel s = (s1, .error e, w1) →
      deleteAssociatedResources f sel s = (s1, .error e, w1) ∧
      s1.clusterRoles = s.clusterRoles ∧
      s1.clusterRoleBindings = s.clusterRoleBindings ∧
      s1.roleBindings = s.roleBindings) ∧
    (∀ e s1 w1 s2 w2, phaseSA f sel s = (s1, .ok (), w1) →
      phaseCR f sel s1 = (s2, .error e, w2) →
      deleteAssociatedResources f sel s = (s2, .error e, w1 ++ w2) ∧
      s2.serviceAccounts = s1.serviceAccounts ∧
      s2.clusterRoleBindings = s1.clusterRoleBindings ∧
      s2.roleBindings = s1.roleBindings) ∧
    (∀ e s1 w1 s2 w2 s3 w3, phaseSA f sel s = (s1, .ok (), w1) →
      phaseCR f sel s1 = (s2, .ok (), w2) →
      phaseCRB f sel s2 = (s3, .error e, w3) →
      deleteAssociatedResources f sel s = (s3, .error e, w1 ++ w2 ++ w3)) := by
  refine ⟨?_, ?_, ?_, ?_, ?_, ?_⟩
  · intro h
    simp [phaseSA, h]
  · intro h
    simp [phaseCR, h]
  · intro h
    simp [phaseCRB, h]
  · intro e s1 w1 h1
    refine ⟨?_, ?_, ?_, ?_⟩
    · simp only [deleteAssociatedResources, h1]
    · have hf := (phaseSA_frame f sel s).1
      rw [h1] at hf
      exact hf
    · have hf := (phaseSA_frame f sel s).2.1
      rw [h1] at hf
      exact hf
    · have hf := (phaseSA_frame f sel s).2.2
      rw [h1] at hf
      exact hf
  · intro e s1 w1 s2 w2 h1 h2
    refine ⟨?_, ?_, ?_, ?_⟩
    · simp only [deleteAssociatedResources, h1, h2]
    · have hf := (phaseCR_frame f sel s1).1
      rw [h2] at hf
      exact hf
    · have hf := (phaseCR_frame f sel s1).2.1
      rw [h2] at hf
      exact hf
    · have hf := (phaseCR_frame f sel s1).2.2
      rw [h2] at hf
      exact hf
  · intro e s1 w1 s2 w2 s3 w3 h1 h2 h3
    simp only [deleteAssociatedResources, h1, h2, h3]

/-- C8 witness: a listing fault leaves the pass a no-op, and a delete fault
aborts the sweep with the error propagated. -/
theorem C8_sweep_error_policy_witness :
    (phaseSA
        ⟨true, true, true, fun _ => false, fun _ => false, fun _ => false,
         false, false, false, false, fun _ => false⟩
        [("app", "g1")]
        ⟨[⟨"sa1", "ns1", [("app", "g1")]⟩], [], [], []⟩ =
      (⟨[⟨"sa1", "ns1", [("app", "g1")]⟩], [], [], []⟩, .ok (), [])) ∧
    (deleteAssociatedResources
        ⟨false, false, false, fun _ => true, fun _ => false, fun _ => false,
         false, false, false, false, fun _ => false⟩
        [("app", "g1")]
        ⟨[⟨"sa1", "ns1", [("app", "g1")]⟩], [], [], []⟩ =
      (⟨[⟨"sa1", "ns1", [("app", "g1")]⟩], [], [], []⟩, .error .deleteFailed, [])) := by
  constructor
  · exact (C8_sweep_error_policy
      ⟨true, true, true, fun _ => false, fun _ => false, fun _ => false,
       false, false, false, false, fun _ => false⟩
      [("app", "g1")]
      ⟨[⟨"sa1", "ns1", [("app", "g1")]⟩], [], [], []⟩).1 rfl
  · exact ((C8_sweep_error_policy
      ⟨false, false, false, fun _ => true, fun _ => false, fun _ => false,
       false, false, false, false, fun _ => false⟩
      [("app", "g1")]
      ⟨[⟨"sa1", "ns1", [("app", "g1")]⟩], [], [], []⟩).2.2.2.1 .deleteFailed
      ⟨[⟨"sa1", "ns1", [("app", "g1")]⟩], [], [], []⟩ [] rfl).1

/-- C7: for a Terminating Grant carrying the finalizer, if the cleanup sweep
fails partway then the invocation returns that failure and no grant update is
among the issued writes, so the finalizer is still present on the stored
Grant; finalizer removal is attempted only after the sweep succeeds. -/
theorem C7_cleanup_gates_finalizer_removal (f : Faults) (g : Grant)
    (s : SpokeState) (subj : RbacSubject) (rest : List RbacSubject) (e : RErr)
    (hs : g.subjects = subj :: rest) (hdel : g.deletionMarked = true)
    (hfin : SpokeAuthorizationFinalizer ∈ g.finalizers)
    (hfail : (deleteAssociatedResources f g.labels s).2.1 = .error e) :
    (Reconcile f (.found g) s).result = .error e ∧
    ∀ ev ∈ (Reconcile f (.found g) s).writes, ev.isGrantUpdate = false := by
  rw [reconcile_terminating_err f g s subj rest e hs hdel hfin hfail]
  exact ⟨rfl, dar_writes f g.labels s⟩

/-- C7 witness: a concrete faulty sweep (the delete of the one matching
service account fails). -/
theorem C7_cleanup_gates_finalizer_removal_witness :
    ((Reconcile
        ⟨false, false, false, fun _ => true, fun _ => false, fun _ => false,
         false, false, false, false, fun _ => false⟩
        (.found ⟨"g1", [("app", "g1")], "alice", "hub1",
                 [⟨"", "User", "alice", ""⟩], "viewer", none, true,
                 [SpokeAuthorizationFinalizer]⟩)
        ⟨[⟨"sa1", "ns1", [("app", "g1")]⟩], [], [], []⟩).result
      = .error .deleteFailed) ∧
    ∀ ev ∈ (Reconcile
        ⟨false, false, false, fun _ => true, fun _ => false, fun _ => false,
         false, false, false, false, fun _ => false⟩
        (.found ⟨"g1", [("app", "g1")], "alice", "hub1",
                 [⟨"", "User", "alice", ""⟩], "viewer", none, true,
                 [SpokeAuthorizationFinalizer]⟩)
        ⟨[⟨"sa1", "ns1", [("app", "g1")]⟩], [], [], []⟩).writes,
      ev.isGrantUpdate = false :=
  C7_cleanup_gates_finalizer_removal
    ⟨false, false, false, fun _ => true, fun _ => false, fun _ => false,
     false, false, false, false, fun _ => false⟩
    ⟨"g1", [("app", "g1")], "alice", "hub1",
     [⟨"", "User", "alice", ""⟩], "viewer", none, true,
     [SpokeAuthorizationFinalizer]⟩
    ⟨[⟨"sa1", "ns1", [("app", "g1")]⟩], [], [], []⟩
    ⟨"", "User", "alice", ""⟩ [] .deleteFailed rfl rfl (by decide) rfl

/-- C3: the spec claims a not-found load succeeds with no action; the code
returns the load error unfiltered (no IsNotFound check), so a not-found load
fails the invocation with that error while taking no action.  This theorem
evaluates the engine at the failing input. -/
theorem C3_notFound_returns_error :
    Reconcile noFaults .notFound ⟨[], [], [], []⟩ =
      ⟨.error (.getFailed true), ⟨[], [], [], []⟩, []⟩ := rfl

/-- C4: the documented scenario.  Grant g1 (subject alice, owner hub1,
cluster-wide scope, role viewer, labels app=g1): one fault-free reconciliation
from an empty spoke produces exactly the impersonation ClusterRole
impersonate-alice-hub1 with the single impersonate/users/alice rule, the
impersonation ClusterRoleBinding impersonate-alice-hub1-rolebinding binding
the fixed service identity to that role, and the cluster-scoped binding g1
binding user alice to ClusterRole viewer. -/
theorem C4_scenario :
    Reconcile noFaults
        (.found ⟨"g1", [("app", "g1")], "alice", "hub1",
                 [⟨"", "User", "alice", ""⟩], "viewer", none, false,
                 [SpokeAuthorizationFinalizer]⟩)
        ⟨[], [], [], []⟩ =
      ⟨.ok (),
       ⟨[],
        [⟨"impersonate-alice-hub1", [("app", "g1")],
          [⟨[""], ["users"], ["impersonate"], ["alice"]⟩]⟩],
        [⟨"impersonate-alice-hub1-rolebinding", [("app", "g1")],
          [⟨"", "ServiceAccount", "cluster-gateway",
            "open-cluster-management-managed-serviceaccount"⟩],
          ⟨"rbac.authorization.k8s.io", "ClusterRole", "impersonate-alice-hub1"⟩⟩,
         ⟨"g1", [("app", "g1")], [⟨"", "User", "alice", ""⟩],
          ⟨"rbac.authorization.k8s.io", "ClusterRole", "viewer"⟩⟩],
        []⟩,
       [.upsertClusterRole .spoke "impersonate-alice-hub1",
        .upsertClusterRoleBinding .spoke "impersonate-alice-hub1-rolebinding",
        .upsertClusterRoleBinding .spoke "g1"]⟩ := rfl

/-- C2: the spec claims the finalizer add and remove are updates sent to the
hub store; in the code both updates go through the spoke client, and the hub
client is never written at all.  Evaluated at a Terminating Grant with the
finalizer (cleanup path) and at an Active Grant without it (activation path):
the only grant updates in the traces are spoke-store events, every write in
both traces targets the spoke store, and no hub-store write exists. -/
theorem C2_finalizer_updates_go_to_spoke :
    (Reconcile noFaults
        (.found ⟨"g1", [("app", "g1")], "alice", "hub1",
                 [⟨"", "User", "alice", ""⟩], "viewer", none, true,
                 [SpokeAuthorizationFinalizer]⟩)
        ⟨[], [], [], []⟩).writes =
      [WriteEvent.updateGrant .spoke
        ⟨"g1", [("app", "g1")], "alice", "hub1",
         [⟨"", "User", "alice", ""⟩], "viewer", none, true, []⟩] ∧
    (Reconcile noFaults
        (.found ⟨"g1", [("app", "g1")], "alice", "hub1",
                 [⟨"", "User", "alice", ""⟩], "viewer", none, false, []⟩)
        ⟨[], [], [], []⟩).writes.head? =
      some (WriteEvent.updateGrant .spoke
        ⟨"g1", [("app", "g1")], "alice", "hub1",
         [⟨"", "User", "alice", ""⟩], "viewer", none, false,
         [SpokeAuthorizationFinalizer]⟩) ∧
    (((Reconcile noFaults
        (.found ⟨"g1", [("app", "g1")], "alice", "hub1",
                 [⟨"", "User", "alice", ""⟩], "viewer", none, true,
                 [SpokeAuthorizationFinalizer]⟩)
        ⟨[], [], [], []⟩).writes ++
      (Reconcile noFaults
        (.found ⟨"g1", [("app", "g1")], "alice", "hub1",
                 [⟨"", "User", "alice", ""⟩], "viewer", none, false, []⟩)
        ⟨[], [], [], []⟩).writes).all
      (fun ev => decide (ev.storeOf = .spoke))) = true := by
  refine ⟨by decide, by decide, by decide⟩

/-- C9: as stated the claim is false.  When a derived object already exists,
the synchronizer's mutator overwrites only the rule/subject/role-reference
fields and leaves the existing labels in place: here the impersonation
ClusterRole pre-exists with an empty label set; the materializer updates its
rules but the updated object's label set stays empty, differing from the
Grant's label set app=g1. -/
theorem C9_counterexample_stale_labels :
    ((Reconcile noFaults
        (.found ⟨"g1", [("app", "g1")], "alice", "hub1",
                 [⟨"", "User", "alice", ""⟩], "viewer", none, false,
                 [SpokeAuthorizationFinalizer]⟩)
        ⟨[], [⟨"impersonate-alice-hub1", [], []⟩], [], []⟩).spoke.clusterRoles =
      [⟨"impersonate-alice-hub1", [],
        [⟨[""], ["users"], ["impersonate"], ["alice"]⟩]⟩]) ∧
    ([] : Labels) ≠ [("app", "g1")] :=
  ⟨rfl, by decide⟩

/-- C9 (amended): every derived object freshly created by the materializer
carries a label set equal to the Grant's; an object that already exists is
patched only in its rules/subjects/roleRef fields, so every derived object's
label set after a run is either the Grant's label set or the label set of
some object already in the store before the run. -/
theorem C9_amended_created_labels (g : Grant) (s : SpokeState)
    (subj : RbacSubject) (rest : List RbacSubject)
    (hs : g.subjects = subj :: rest) (hdel : g.deletionMarked = false)
    (hfin : SpokeAuthorizationFinalizer ∈ g.finalizers) :
    ((g.roleRefNamespaces = none →
      hasKey crKey (impName subj.name g.hubOwnerID) s.clusterRoles = false →
      hasKey crbKey (impName subj.name g.hubOwnerID ++ "-rolebinding")
        s.clusterRoleBindings = false →
      hasKey crbKey g.name s.clusterRoleBindings = false →
      impName subj.name g.hubOwnerID ++ "-rolebinding" ≠ g.name →
      (Reconcile noFaults (.found g) s).spoke.clusterRoles =
          s.clusterRoles ++ [impersonationRole g subj.name g.hubOwnerID] ∧
      (Reconcile noFaults (.found g) s).spoke.clusterRoleBindings =
          s.clusterRoleBindings ++
            [impersonationBinding g subj.name g.hubOwnerID,
             givenClusterRoleBinding g subj.name] ∧
      (impersonationRole g subj.name g.hubOwnerID).labels = g.labels ∧
      (impersonationBinding g subj.name g.hubOwnerID).labels = g.labels ∧
      (givenClusterRoleBinding g subj.name).labels = g.labels) ∧
    (∀ x ∈ (Reconcile noFaults (.found g) s).spoke.clusterRoles,
        x.labels = g.labels ∨ ∃ y ∈ s.clusterRoles, x.labels = y.labels) ∧
    (∀ x ∈ (Reconcile noFaults (.found g) s).spoke.clusterRoleBindings,
        x.labels = g.labels ∨ ∃ y ∈ s.clusterRoleBindings, x.labels = y.labels) ∧
    (∀ x ∈ (Reconcile noFaults (.found g) s).spoke.roleBindings,
        x.labels = g.labels ∨ ∃ y ∈ s.roleBindings, x.labels = y.labels)) := by
  rw [reconcile_active g s subj rest hs hdel hfin]
  refine ⟨?_, ?_, ?_, ?_⟩
  · intro hns fresh1 fresh2 fresh3 hneq
    have hcr : upsertAll crKey crMut (crDesireds g subj.name g.hubOwnerID) s.clusterRoles =
        s.clusterRoles ++ [impersonationRole g subj.name g.hubOwnerID] := by
      show upsert crKey crMut (impersonationRole g subj.name g.hubOwnerID) s.clusterRoles = _
      exact upsert_of_not_hasKey _ _ _ _ fresh1
    have hds : crbDesireds g subj.name g.hubOwnerID =
        [impersonationBinding g subj.name g.hubOwnerID,
         givenClusterRoleBinding g subj.name] := by
      simp [crbDesireds, hns]
    have h2 : hasKey crbKey (crbKey (givenClusterRoleBinding g subj.name))
        (s.clusterRoleBindings ++ [impersonationBinding g subj.name g.hubOwnerID]) = false := by
      rw [hasKey_append]
      rw [show crbKey (givenClusterRoleBinding g subj.name) = g.name from rfl]
      rw [fresh3]
      simp [hasKey, crbKey, impersonationBinding, hneq]
    have hcrb : upsertAll crbKey crbMut (crbDesireds g subj.name g.hubOwnerID)
        s.clusterRoleBindings =
        s.clusterRoleBindings ++
          [impersonationBinding g subj.name g.hubOwnerID,
           givenClusterRoleBinding g subj.name] := by
      rw [hds]
      show upsert crbKey crbMut (givenClusterRoleBinding g subj.name)
          (upsert crbKey crbMut (impersonationBinding g subj.name g.hubOwnerID)
            s.clusterRoleBindings) = _
      rw [upsert_of_not_hasKey crbKey crbMut
        (impersonationBinding g subj.name g.hubOwnerID) s.clusterRoleBindings fresh2]
      rw [upsert_of_not_hasKey crbKey crbMut (givenClusterRoleBinding g subj.name) _ h2]
      simp
    exact ⟨hcr, hcrb, rfl, rfl, rfl⟩
  · intro x hx
    rcases mem_upsertAll_field crKey crMut ClusterRole.labels (fun _ _ => rfl)
        (crDesireds g subj.name g.hubOwnerID) x s.clusterRoles hx with ⟨d, hd, hxd⟩ | hy
    · left
      have hdl : d.labels = g.labels := by
        simp only [crDesireds, List.mem_singleton] at hd
        subst hd
        rfl
      rw [hxd, hdl]
    · right
      exact hy
  · intro x hx
    rcases mem_upsertAll_field crbKey crbMut ClusterRoleBinding.labels (fun _ _ => rfl)
        (crbDesireds g subj.name g.hubOwnerID) x s.clusterRoleBindings hx with ⟨d, hd, hxd⟩ | hy
    · left
      have hdl : d.labels = g.labels := by
        unfold crbDesireds at hd
        cases hcase : g.roleRefNamespaces with
        | none =>
          rw [hcase] at hd
          simp at hd
          rcases hd with rfl | rfl
          · rfl
          · rfl
        | some nss =>
          rw [hcase] at hd
          simp at hd
          subst hd
          rfl
      rw [hxd, hdl]
    · right
      exact hy
  · intro x hx
    rcases mem_upsertAll_field rbKey rbMut RoleBinding.labels (fun _ _ => rfl)
        (rbDesireds g subj.name) x s.roleBindings hx with ⟨d, hd, hxd⟩ | hy
    · left
      have hdl : d.labels = g.labels := by
        unfold rbDesireds at hd
        cases hcase : g.roleRefNamespaces with
        | none =>
          rw [hcase] at hd
          simp at hd
        | some nss =>
          rw [hcase] at hd
          simp only [List.mem_map] at hd
          rcases hd with ⟨n, _, rfl⟩
          rfl
      rw [hxd, hdl]
    · right
      exact hy

/-- C9 amended witness: fresh cluster-wide instance; the freshly created
impersonation role is appended carrying the Grant's labels. -/
theorem C9_amended_created_labels_witness :
    (Reconcile noFaults
        (.found ⟨"g1", [("app", "g1")], "alice", "hub1",
                 [⟨"", "User", "alice", ""⟩], "viewer", none, false,
                 [SpokeAuthorizationFinalizer]⟩)
        ⟨[], [], [], []⟩).spoke.clusterRoles =
      [] ++ [impersonationRole
        ⟨"g1", [("app", "g1")], "alice", "hub1",
         [⟨"", "User", "alice", ""⟩], "viewer", none, false,
         [SpokeAuthorizationFinalizer]⟩ "alice" "hub1"] := by
  exact ((C9_amended_created_labels
    ⟨"g1", [("app", "g1")], "alice", "hub1",
     [⟨"", "User", "alice", ""⟩], "viewer", none, false,
     [SpokeAuthorizationFinalizer]⟩
    ⟨[], [], [], []⟩ ⟨"", "User", "alice", ""⟩ [] rfl rfl (by decide)).1
    rfl rfl rfl rfl (by decide)).1

/-- C10: the reconciler reads Subjects[0] before branching on the deletion
marker, so every invocation on a loaded Grant, the cleanup path of a
Terminating Grant included, requires a non-empty subject list (an empty list
is the out-of-range panic, modelled as the subjectIndex outcome, with no
store action taken); under the non-emptiness precondition the access is in
range and the invocation never produces the subjectIndex outcome. -/
theorem C10_subject_read_before_branch (f : Faults) (g : Grant) (s : SpokeState) :
    (g.subjects = [] → Reconcile f (.found g) s = ⟨.error .subjectIndex, s, []⟩) ∧
    (g.subjects ≠ [] → (Reconcile f (.found g) s).result ≠ .error .subjectIndex) := by
  constructor
  · intro hempty
    simp only [Reconcile, hempty]
  · intro hne
    rcases List.exists_cons_of_ne_nil hne with ⟨subj, rest, hs⟩
    rcases reconcile_found_shape f g s subj rest hs with h | h | h | h <;> rw [h] <;> simp

/-- C10 witness: a Terminating Grant with an empty subject list hits the
out-of-range access even though the cleanup path never uses the subject; a
Grant with one subject never produces the subjectIndex outcome. -/
theorem C10_subject_read_before_branch_witness :
    (Reconcile noFaults
        (.found ⟨"g1", [("app", "g1")], "alice", "hub1", [], "viewer", none,
                 true, [SpokeAuthorizationFinalizer]⟩)
        ⟨[], [], [], []⟩ =
      ⟨.error .subjectIndex, ⟨[], [], [], []⟩, []⟩) ∧
    ((Reconcile noFaults
        (.found ⟨"g1", [("app", "g1")], "alice", "hub1",
                 [⟨"", "User", "alice", ""⟩], "viewer", none, false,
                 [SpokeAuthorizationFinalizer]⟩)
        ⟨[], [], [], []⟩).result ≠ .error .subjectIndex) := by
  constructor
  · exact (C10_subject_read_before_branch noFaults
      ⟨"g1", [("app", "g1")], "alice", "hub1", [], "viewer", none,
       true, [SpokeAuthorizationFinalizer]⟩
      ⟨[], [], [], []⟩).1 rfl
  · exact (C10_subject_read_before_branch noFaults
      ⟨"g1", [("app", "g1")], "alice", "hub1",
       [⟨"", "User", "alice", ""⟩], "viewer", none, false,
       [SpokeAuthorizationFinalizer]⟩
      ⟨[], [], [], []⟩).2 (by decide)

end ClusterAuth
